import Mathlib

set_option maxRecDepth 20000
set_option maxHeartbeats 1000000

namespace Alex

/-!
Shallow embedding of the task / settings / timer core of
src/src/extension.ts (class AlexProvider).  JS machine integers appearing
here are whole milliseconds or indices, modelled as Nat (Int where the
source allows negative indices).  Absent JS object fields are modelled as
none.
-/

/-- A task record (interface Task, lines 6-13).  At runtime status and
environment are open string labels; createdAt is a JS Date held as whole
milliseconds since the Unix epoch. -/
structure Task where
  jiraId : String
  notes : String
  modifiedFiles : List String
  createdAt : Nat
  status : String
  environment : String
deriving DecidableEq

/-- A runtime value of type Partial over Task: fields absent from the
object literal are none. -/
structure PartialTask where
  jiraId : Option String
  notes : Option String
  modifiedFiles : Option (List String)
  createdAt : Option Nat
  status : Option String
  environment : Option String
deriving DecidableEq

/-- The object spread on line 268: every field supplied in the update
overwrites the corresponding field of the task, absent fields keep the old
value. -/
def spreadTask (t : Task) (u : PartialTask) : Task :=
  ⟨u.jiraId.getD t.jiraId, u.notes.getD t.notes,
   u.modifiedFiles.getD t.modifiedFiles, u.createdAt.getD t.createdAt,
   u.status.getD t.status, u.environment.getD t.environment⟩

/-- Outcome of a position-addressed task operation.  The outOfRange
constructor exists so the error-handling claims can be stated; the
implementation below never produces it. -/
inductive TaskOpOutcome where
  | success (message : String)
  | outOfRange
deriving DecidableEq

def deleteMsg : String := "Task deleted successfully!"

def updateMsg : String := "Task updated successfully!"

/-- Start-index clamping of Array.prototype.splice: a negative index
counts from the end (clamped at 0), a non-negative one is clamped at the
length. -/
def spliceStart (len : Nat) (index : Int) : Nat :=
  if index < 0 then ((len : Int) + index).toNat else min index.toNat len

/-- Result of _deleteTask: the new in-memory array, the value written to
globalState (none would mean no write happened), and the user-visible
outcome. -/
structure DeleteResult where
  tasks : List Task
  persisted : Option (List Task)
  outcome : TaskOpOutcome
deriving DecidableEq

/-- _deleteTask, lines 260-265: splice(index, 1) with no bounds check,
then an unconditional persistence write and success message. -/
def deleteTask (tasks : List Task) (index : Int) : DeleteResult :=
  let start := spliceStart tasks.length index
  let newTasks := tasks.take start ++ tasks.drop (start + 1)
  ⟨newTasks, some newTasks, TaskOpOutcome.success deleteMsg⟩

/-- Shape of the in-memory tasks array after an _updateTask call.  An
assignment at an index beyond the current length leaves undefined holes
followed by an element that holds only the supplied fields (the spread of
undefined with the update object). -/
inductive TasksAfterUpdate where
  | intact (tasks : List Task)
  | overExtended (tasks : List Task) (holes : Nat) (extra : PartialTask)
deriving DecidableEq

structure UpdateResult where
  tasks : TasksAfterUpdate
  persisted : Option TasksAfterUpdate
  outcome : TaskOpOutcome
deriving DecidableEq

/-- _updateTask, lines 267-272: tasks[index] is replaced by the spread of
the old element with the updates, with no bounds check, then an
unconditional persistence write and success message.  A negative index
sets a non-index property on the array object, so the element sequence
(and its JSON serialization) is unchanged. -/
def updateTask (tasks : List Task) (index : Int) (u : PartialTask) : UpdateResult :=
  if index < 0 then
    ⟨TasksAfterUpdate.intact tasks, some (TasksAfterUpdate.intact tasks),
     TaskOpOutcome.success updateMsg⟩
  else if h : index.toNat < tasks.length then
    let newTasks := tasks.set index.toNat (spreadTask tasks[index.toNat] u)
    ⟨TasksAfterUpdate.intact newTasks, some (TasksAfterUpdate.intact newTasks),
     TaskOpOutcome.success updateMsg⟩
  else
    let shape := TasksAfterUpdate.overExtended tasks (index.toNat - tasks.length) u
    ⟨shape, some shape, TaskOpOutcome.success updateMsg⟩

/-- Arguments of one _addTask call together with the wall-clock instant at
which it runs (new Date() on line 141). -/
structure AddCall where
  time : Nat
  jiraId : String
  notes : String
  status : String
  environment : String
  selectedFiles : List String
deriving DecidableEq

/-- The Task literal built on lines 137-144. -/
def mkTask (c : AddCall) : Task :=
  ⟨c.jiraId, c.notes, c.selectedFiles, c.time, c.status, c.environment⟩

structure AddResult where
  tasks : List Task
  created : Task
  persisted : Option (List Task)
  message : String
deriving DecidableEq

/-- _addTask, lines 136-157: construct the task, push it onto the end,
persist the whole sequence, report success. -/
def addTask (tasks : List Task) (c : AddCall) : AddResult :=
  let task := mkTask c
  ⟨tasks ++ [task], task, some (tasks ++ [task]),
   "Task " ++ c.jiraId ++ " added successfully!"⟩

/-- A sequence of _addTask calls folded over an initial task list. -/
def runAdds (tasks : List Task) (calls : List AddCall) : List Task :=
  calls.foldl (fun ts c => (addTask ts c).tasks) tasks

def sampleTask : Task := ⟨"PROJ-1", "first", [], 1000, "dev", "dev"⟩

def samplePartial : PartialTask := ⟨none, none, none, some 123, none, none⟩

/-- The pomodoro sub-record of the in-memory settings.  After a partial
update the object may lack some of its fields, hence the Options. -/
structure PomodoroObj where
  workDuration : Option Nat
  shortBreakDuration : Option Nat
  longBreakDuration : Option Nat
  longBreakInterval : Option Nat
deriving DecidableEq

structure FocusModeObj where
  hideSidebar : Option Bool
  hideActivityBar : Option Bool
  hideStatusBar : Option Bool
  hidePanel : Option Bool
  hideMinimap : Option Bool
  hideLineNumbers : Option Bool
deriving DecidableEq

structure NotificationsObj where
  enableInactivityAlerts : Option Bool
  inactivityThreshold : Option Nat
  enablePomodoroNotifications : Option Bool
  enableTaskReminders : Option Bool
deriving DecidableEq

/-- The in-memory this._settings record (interface AlexSettings, lines
15-38).  The five top-level fields are always present; the sub-records may
be partial after a shallow merge. -/
structure SettingsObj where
  taskStatuses : List String
  environments : List String
  pomodoro : PomodoroObj
  focusMode : FocusModeObj
  notifications : NotificationsObj
deriving DecidableEq

/-- A runtime value of type Partial over AlexSettings, as received by
_saveSettings: top-level fields may be absent, and a present sub-record
may itself be partial. -/
structure PartialSettings where
  taskStatuses : Option (List String)
  environments : Option (List String)
  pomodoro : Option PomodoroObj
  focusMode : Option FocusModeObj
  notifications : Option NotificationsObj
deriving DecidableEq

/-- The object spread on line 101: a shallow top-level merge.  A supplied
sub-record replaces the whole previous sub-record. -/
def mergeSettings (cur : SettingsObj) (p : PartialSettings) : SettingsObj :=
  ⟨p.taskStatuses.getD cur.taskStatuses, p.environments.getD cur.environments,
   p.pomodoro.getD cur.pomodoro, p.focusMode.getD cur.focusMode,
   p.notifications.getD cur.notifications⟩

/-- A value stored in the host configuration (vscode workspace
configuration), restricted to the shapes this extension reads or
writes. -/
inductive CfgVal where
  | num (n : Nat)
  | flag (b : Bool)
  | strs (l : List String)
  | pom (p : PomodoroObj)
  | focus (f : FocusModeObj)
  | notif (n : NotificationsObj)
deriving DecidableEq

/-- The host configuration as an association list from full dotted keys to
values. -/
def HostConfig : Type := List (String × CfgVal)

instance : DecidableEq HostConfig := by
  unfold HostConfig
  infer_instance

def lookupCfg : HostConfig → String → Option CfgVal
  | [], _ => none
  | (k, v) :: rest, key => if k = key then some v else lookupCfg rest key

def cfgUpdate : HostConfig → String → CfgVal → HostConfig
  | [], key, v => [(key, v)]
  | (k, w) :: rest, key, v =>
      if k = key then (k, v) :: rest else (k, w) :: cfgUpdate rest key v

def keyTaskStatuses : String := "alex.taskStatuses"

def keyEnvironments : String := "alex.environments"

def keyPomodoro : String := "alex.pomodoro"

def keyFocusMode : String := "alex.focusMode"

def keyNotifications : String := "alex.notifications"

/-- The key read by the inactivity watchdog on line 128:
getConfiguration of alex, get of inactivityThreshold. -/
def keyInactivityThreshold : String := "alex.inactivityThreshold"

/-- config.get of a number followed by JS or-defaulting (lines 75-78, 90):
undefined, a non-number, and 0 (falsy) all fall back to the default. -/
def getNumOr (cfg : HostConfig) (key : String) (dflt : Nat) : Nat :=
  match lookupCfg cfg key with
  | some (CfgVal.num n) => if n = 0 then dflt else n
  | _ => dflt

/-- config.get of a boolean followed by ?? defaulting (lines 81-92): only
an absent value falls back. -/
def getBoolOr (cfg : HostConfig) (key : String) (dflt : Bool) : Bool :=
  match lookupCfg cfg key with
  | some (CfgVal.flag b) => b
  | _ => dflt

/-- config.get of a string list followed by JS or-defaulting (lines
72-73); an empty array is truthy in JS so it does not fall back. -/
def getStrsOr (cfg : HostConfig) (key : String) (dflt : List String) : List String :=
  match lookupCfg cfg key with
  | some (CfgVal.strs l) => l
  | _ => dflt

/-- _loadSettings, lines 68-95: every field is read individually from the
host configuration and falls back to its documented default, so the loaded
record always has every field defined. -/
def loadSettings (cfg : HostConfig) : SettingsObj :=
  ⟨getStrsOr cfg ("alex.taskStatuses") ["dev", "code_review", "to_deploy", "deployed"],
   getStrsOr cfg ("alex.environments") ["dev", "centest", "uat", "weekc", "production"],
   ⟨some (getNumOr cfg ("alex.pomodoro.workDuration") 25),
    some (getNumOr cfg ("alex.pomodoro.shortBreakDuration") 5),
    some (getNumOr cfg ("alex.pomodoro.longBreakDuration") 15),
    some (getNumOr cfg ("alex.pomodoro.longBreakInterval") 4)⟩,
   ⟨some (getBoolOr cfg ("alex.focusMode.hideSidebar") true),
    some (getBoolOr cfg ("alex.focusMode.hideActivityBar") true),
    some (getBoolOr cfg ("alex.focusMode.hideStatusBar") true),
    some (getBoolOr cfg ("alex.focusMode.hidePanel") true),
    some (getBoolOr cfg ("alex.focusMode.hideMinimap") true),
    some (getBoolOr cfg ("alex.focusMode.hideLineNumbers") true)⟩,
   ⟨some (getBoolOr cfg ("alex.notifications.enableInactivityAlerts") true),
    some (getNumOr cfg ("alex.notifications.inactivityThreshold") 5),
    some (getBoolOr cfg ("alex.notifications.enablePomodoroNotifications") true),
    some (getBoolOr cfg ("alex.notifications.enableTaskReminders") true)⟩⟩

/-- _startPomodoro, lines 159-199: any previously live interval is cleared
and replaced (lines 162-164), the end time is now plus the configured work
duration in minutes (line 166), and the initial display string is the
duration followed by a colon and two zeros (lines 192-198).  An absent
workDuration would make the original compute NaN; every theorem below
invokes this only at states whose workDuration is present, and absence is
mapped to duration 0 here. -/
def startPomodoro (settings : SettingsObj) (now : Nat) : Option Nat × String :=
  let duration := settings.pomodoro.workDuration.getD 0
  (some (now + duration * 60 * 1000), toString duration ++ ":00")

/-- Result of a _saveSettings call: the merged in-memory record, the state
of the pomodoro interval (some end time when one is live), and the host
configuration after the five writes of lines 104-108. -/
structure SaveResult where
  settings : SettingsObj
  timer : Option Nat
  cfg : HostConfig
deriving DecidableEq

/-- _saveSettings, lines 97-117: shallow-merge the partial record into the
current settings, write each of the five top-level fields to the host
configuration, and, when the partial record carried a pomodoro sub-record
while a pomodoro interval is live, restart the timer from now with the new
duration. -/
def saveSettings (settings : SettingsObj) (timer : Option Nat) (cfg : HostConfig)
    (p : PartialSettings) (now : Nat) : SaveResult :=
  let merged := mergeSettings settings p
  let cfg1 := cfgUpdate cfg keyTaskStatuses (CfgVal.strs merged.taskStatuses)
  let cfg2 := cfgUpdate cfg1 keyEnvironments (CfgVal.strs merged.environments)
  let cfg3 := cfgUpdate cfg2 keyPomodoro (CfgVal.pom merged.pomodoro)
  let cfg4 := cfgUpdate cfg3 keyFocusMode (CfgVal.focus merged.focusMode)
  let cfg5 := cfgUpdate cfg4 keyNotifications (CfgVal.notif merged.notifications)
  if p.pomodoro.isSome && timer.isSome then
    ⟨merged, (startPomodoro merged now).1, cfg5⟩
  else
    ⟨merged, timer, cfg5⟩

/-- One external display directive issued by focus mode: a configuration
target together with the value written to it. -/
inductive FocusVal where
  | vb (b : Bool)
  | vs (s : String)
deriving DecidableEq

structure FocusDirective where
  target : String
  value : FocusVal
deriving DecidableEq

structure ToggleResult where
  isFocusMode : Bool
  directives : List FocusDirective
  event : Bool
  message : String
deriving DecidableEq

/-- JS truthiness of a possibly absent boolean (if with an Option Bool):
only some true passes. -/
def jsTruthy (o : Option Bool) : Bool := o.getD false

/-- _toggleFocusMode, lines 201-237: flip the boolean, emit one display
directive per enabled focusMode flag (in source order: sidebar, minimap,
line numbers, activity bar, status bar, panel), post one focusModeChanged
event carrying the new value, and show a confirmation message. -/
def toggleFocusMode (settings : SettingsObj) (isFocusMode : Bool) : ToggleResult :=
  let f := !isFocusMode
  ⟨f,
   (if jsTruthy settings.focusMode.hideSidebar then
      [⟨"workbench.sideBar.visible", FocusVal.vb (!f)⟩] else []) ++
   (if jsTruthy settings.focusMode.hideMinimap then
      [⟨"editor.minimap.enabled", FocusVal.vb (!f)⟩] else []) ++
   (if jsTruthy settings.focusMode.hideLineNumbers then
      [⟨"editor.lineNumbers", FocusVal.vs (if f then "off" else "on")⟩] else []) ++
   (if jsTruthy settings.focusMode.hideActivityBar then
      [⟨"workbench.activityBar.visible", FocusVal.vb (!f)⟩] else []) ++
   (if jsTruthy settings.focusMode.hideStatusBar then
      [⟨"workbench.statusBar.visible", FocusVal.vb (!f)⟩] else []) ++
   (if jsTruthy settings.focusMode.hidePanel then
      [⟨"workbench.panel.visible", FocusVal.vb (!f)⟩] else []),
   f,
   if f then "Focus Mode Enabled: Distractions minimized for better concentration"
   else "Focus Mode Disabled: All UI elements restored"⟩

/-- Threshold used by the watchdog callback, line 128: read afresh from
the host configuration key alex.inactivityThreshold with JS or-default 5
(0 and absent both yield 5). -/
def inactivityThresholdOf (cfg : HostConfig) : Nat :=
  getNumOr cfg keyInactivityThreshold 5

/-- The watchdog callback of lines 126-133: fires whenever the elapsed
minutes since the last recorded activity reach the threshold.  The source
divides milliseconds by 60000 in real arithmetic and compares against an
integral threshold, which coincides with the floor division used here.
The in-memory settings record is a parameter because the callback
closes over this._settings, but the source never consults it. -/
def inactivityPoll (settings : SettingsObj) (lastActivityTime : Nat)
    (cfg : HostConfig) (now : Nat) : Bool :=
  let inactiveMinutes := (now - lastActivityTime) / (1000 * 60)
  let threshold := inactivityThresholdOf cfg
  decide (threshold ≤ inactiveMinutes)

/-- JS padStart of a rendered number to width 2 with a zero (line 186). -/
def pad2str (n : Nat) : String :=
  let s := toString n
  if s.length < 2 then "0" ++ s else s

/-- The display string of a non-final tick, line 186: minutes are rendered
bare while seconds are zero-padded to two digits. -/
def formatTick (remaining : Nat) : String :=
  let minutes := remaining / (60 * 1000)
  let seconds := remaining % (60 * 1000) / 1000
  toString minutes ++ ":" ++ pad2str seconds

/-- Modelled from the spec: the countdown format the spec calls mm and ss,
both components zero-padded to two digits.  Used only to compare the
claimed format with the implemented one. -/
def specMMSS (remaining : Nat) : String :=
  pad2str (remaining / (60 * 1000)) ++ ":" ++ pad2str (remaining % (60 * 1000) / 1000)

/-- Output of one invocation of the interval callback: the posted display
string and whether the completion notification was shown. -/
structure TickOut where
  display : String
  notified : Bool
deriving DecidableEq

/-- One invocation of the setInterval callback of lines 168-190: remaining
is clamped at zero by Nat subtraction; at zero the callback shows the
completion message, clears its own interval (first component none) and
posts a zero display, otherwise it posts the formatted countdown and the
interval stays live. -/
def pomodoroTick (endTime now : Nat) : Option Nat × TickOut :=
  let remaining := endTime - now
  if remaining = 0 then (none, ⟨"00:00", true⟩)
  else (some endTime, ⟨formatTick remaining, false⟩)

/-- Repeated invocations of the interval callback at the given instants.
Once the callback clears its own interval no further invocation happens,
so later instants are ignored.  Returns the emitted outputs and the final
interval state. -/
def runTicks (endTime : Nat) : List Nat → List TickOut × Option Nat
  | [] => ([], some endTime)
  | now :: rest =>
    match pomodoroTick endTime now with
    | (none, out) => ([out], none)
    | (some e, out) =>
      let r := runTicks e rest
      (out :: r.1, r.2)

/-! ### Date serialization

Date.prototype.toISOString renders the millisecond timestamp as
YYYY-MM-DDTHH:MM:SS.mmmZ in the proleptic Gregorian calendar, and new
Date on such a string recomputes the timestamp from the components.  The
embedding below implements both for timestamps from 1970 up to the year
10000 (beyond which toISOString switches to the expanded year form). -/

def isLeap (y : Nat) : Bool :=
  (y % 4 = 0 && y % 100 ≠ 0) || y % 400 = 0

def daysInYear (y : Nat) : Nat := if isLeap y then 366 else 365

/-- Starting at year y with n whole days remaining, peel off whole years;
returns the final year and the day of that year (0-based). -/
def yearSplit (y n : Nat) : Nat × Nat :=
  if h : n < daysInYear y then (y, n)
  else yearSplit (y + 1) (n - daysInYear y)
termination_by n
decreasing_by
  have h365 : 365 ≤ daysInYear y := by
    unfold daysInYear
    split <;> omega
  omega

/-- Total days of the k years starting at year y. -/
def ydaysFrom (y : Nat) : Nat → Nat
  | 0 => 0
  | k + 1 => daysInYear y + ydaysFrom (y + 1) k

def monthLengths (leap : Bool) : List Nat :=
  [31, if leap then 29 else 28, 31, 30, 31, 30, 31, 31, 30, 31, 30, 31]

/-- Given successive month lengths and a 0-based day of year, return the
0-based month index and the 0-based day of that month. -/
def monthSplit : List Nat → Nat → Nat × Nat
  | [], n => (0, n)
  | m :: ms, n =>
    if n < m then (0, n)
    else
      let r := monthSplit ms (n - m)
      (r.1 + 1, r.2)

/-- Days of the year before the 0-based month m. -/
def daysBeforeMonth (leap : Bool) (m : Nat) : Nat :=
  ((monthLengths leap).take m).sum

/-- Whole days from 1970-01-01 to the given civil date (month and day
1-based), as recomputed when new Date parses a date string. -/
def dayFromCivil (y m d : Nat) : Nat :=
  ydaysFrom 1970 (y - 1970) + daysBeforeMonth (isLeap y) (m - 1) + (d - 1)

def digitChar (n : Nat) : Char := Char.ofNat (48 + n)

/-- The numeric value of a decimal digit character, none otherwise. -/
def digitVal (c : Char) : Option Nat :=
  if 48 ≤ c.toNat ∧ c.toNat ≤ 57 then some (c.toNat - 48) else none

def pad2Chars (n : Nat) : List Char :=
  [digitChar (n / 10), digitChar (n % 10)]

def pad3Chars (n : Nat) : List Char :=
  [digitChar (n / 100), digitChar (n / 10 % 10), digitChar (n % 10)]

def pad4Chars (n : Nat) : List Char :=
  [digitChar (n / 1000), digitChar (n / 100 % 10), digitChar (n / 10 % 10), digitChar (n % 10)]

def read2 (a b : Char) : Option Nat := do
  let x ← digitVal a
  let y ← digitVal b
  some (10 * x + y)

def read3 (a b c : Char) : Option Nat := do
  let x ← digitVal a
  let y ← digitVal b
  let z ← digitVal c
  some (100 * x + 10 * y + z)

def read4 (a b c d : Char) : Option Nat := do
  let x ← digitVal a
  let y ← digitVal b
  let z ← digitVal c
  let w ← digitVal d
  some (1000 * x + 100 * y + 10 * z + w)

/-- The character sequence produced by toISOString for a timestamp before
the year 10000: four-digit year, then two-digit month, day, hour, minute,
second and a three-digit millisecond field, with the fixed punctuation. -/
def toISOChars (t : Nat) : List Char :=
  let day := t / 86400000
  let ys := yearSplit 1970 day
  let ms := monthSplit (monthLengths (isLeap ys.1)) ys.2
  pad4Chars ys.1 ++ '-' :: pad2Chars (ms.1 + 1) ++ '-' :: pad2Chars (ms.2 + 1) ++
    'T' :: pad2Chars (t / 3600000 % 24) ++ ':' :: pad2Chars (t / 60000 % 60) ++
    ':' :: pad2Chars (t / 1000 % 60) ++ '.' :: pad3Chars (t % 1000) ++ ['Z']

def toISOString (t : Nat) : String := String.mk (toISOChars t)

/-- The timestamp recomputed by new Date from a string of exactly the
shape produced by toISOString: read each numeric component and rebuild the
millisecond count; anything else is rejected (in JS, an invalid date). -/
def parseISOChars : List Char → Option Nat
  | [y1, y2, y3, y4, '-', o1, o2, '-', d1, d2, 'T',
     h1, h2, ':', i1, i2, ':', s1, s2, '.', f1, f2, f3, 'Z'] => do
    let y ← read4 y1 y2 y3 y4
    let mo ← read2 o1 o2
    let d ← read2 d1 d2
    let hh ← read2 h1 h2
    let mi ← read2 i1 i2
    let ss ← read2 s1 s2
    let ms ← read3 f1 f2 f3
    some (dayFromCivil y mo d * 86400000 + hh * 3600000 + mi * 60000 + ss * 1000 + ms)
  | _ => none

def parseISO (s : String) : Option Nat := parseISOChars s.data

/-- A persisted task record as JSON-serialized into globalState: the Date
is stored in its ISO string form (Date.prototype.toJSON), every other
field verbatim. -/
structure StoredTask where
  jiraId : String
  notes : String
  modifiedFiles : List String
  createdAt : String
  status : String
  environment : String
deriving DecidableEq

/-- JSON serialization of a task on its way into globalState. -/
def serializeTask (t : Task) : StoredTask :=
  ⟨t.jiraId, t.notes, t.modifiedFiles, toISOString t.createdAt, t.status, t.environment⟩

/-- The constructor revival of lines 56-59: spread the stored record and
replace createdAt by new Date of the stored string; none models a JS
invalid date. -/
def reviveTask (s : StoredTask) : Option Task :=
  (parseISO s.createdAt).map fun ms =>
    ⟨s.jiraId, s.notes, s.modifiedFiles, ms, s.status, s.environment⟩

/-- Milliseconds at 10000-01-01T00:00:00Z, the upper bound of the
four-digit-year regime of toISOString. -/
def year10000ms : Nat := 253402300800000

/-- Number of leap years below y in the proleptic Gregorian calendar
(year 0 counted as leap). -/
def leapCount (y : Nat) : Nat := (y + 3) / 4 - (y + 99) / 100 + (y + 399) / 400

/-- The partial settings record of the claim about settings merging:
only pomodoro.workDuration is supplied, set to 50. -/
def pomOnly : PartialSettings :=
  ⟨none, none, some ⟨some 50, none, none, none⟩, none, none⟩

/-- The output of a non-final tick at instant t against the given end
time. -/
def displayTick (endTime t : Nat) : TickOut := ⟨formatTick (endTime - t), false⟩

/-- The output of the final (completing) tick. -/
def zeroTick : TickOut := ⟨"00:00", true⟩

def sampleCalls : List AddCall :=
  [⟨1, "PROJ-1", "a", "dev", "dev", []⟩, ⟨2, "PROJ-2", "b", "uat", "uat", []⟩]

/-! ## Theorems -/

/-- Claim C1 (counterexample): on a one-element task list, deleting or
updating at position 1 (one past the end) does not fail with OutOfRange —
both report success — and the persistence write still occurs. -/
theorem c1_counterexample :
    (deleteTask [sampleTask] 1).outcome ≠ TaskOpOutcome.outOfRange ∧
    (deleteTask [sampleTask] 1).persisted ≠ none ∧
    (updateTask [sampleTask] 1 samplePartial).outcome ≠ TaskOpOutcome.outOfRange ∧
    (updateTask [sampleTask] 1 samplePartial).persisted ≠ none := by
  decide

/-- Claim C1 (amended): neither operation checks bounds.  Every call
reports success (never OutOfRange) and always performs the persistence
write; a delete at a position at or past the length removes nothing (the
unchanged sequence is still persisted); an update at a negative position
leaves the element sequence unchanged; an update at a position at or past
the length stores undefined holes plus a record made of only the supplied
fields instead of failing. -/
theorem c1_amended (tasks : List Task) (index : Int) (u : PartialTask) :
    (deleteTask tasks index).outcome = TaskOpOutcome.success deleteMsg ∧
    (deleteTask tasks index).persisted = some (deleteTask tasks index).tasks ∧
    (updateTask tasks index u).outcome = TaskOpOutcome.success updateMsg ∧
    (updateTask tasks index u).persisted = some (updateTask tasks index u).tasks ∧
    ((tasks.length : Int) ≤ index → (deleteTask tasks index).tasks = tasks) ∧
    (index < 0 → (updateTask tasks index u).tasks = TasksAfterUpdate.intact tasks) ∧
    ((tasks.length : Int) ≤ index →
      (updateTask tasks index u).tasks =
        TasksAfterUpdate.overExtended tasks (index.toNat - tasks.length) u) := by
  refine ⟨rfl, rfl, ?_, ?_, ?_, ?_, ?_⟩
  · unfold updateTask
    split
    · rfl
    · split <;> rfl
  · unfold updateTask
    split
    · rfl
    · split <;> rfl
  · intro h
    have h0 : ¬ index < 0 := by omega
    have h2 : min index.toNat tasks.length = tasks.length := by omega
    simp only [deleteTask, spliceStart, if_neg h0, h2]
    rw [List.take_length, List.drop_eq_nil_of_le (by omega), List.append_nil]
  · intro h
    unfold updateTask
    rw [if_pos h]
  · intro h
    have h0 : ¬ index < 0 := by omega
    have h1 : ¬ index.toNat < tasks.length := by omega
    unfold updateTask
    rw [if_neg h0, dif_neg h1]

/-- Claim C1 (amended, witness): the amended claim instantiated on a
one-element list at position 2. -/
theorem c1_amended_witness :
    (deleteTask [sampleTask] 2).tasks = [sampleTask] ∧
    (updateTask [sampleTask] 2 samplePartial).tasks =
      TasksAfterUpdate.overExtended [sampleTask] ((2 : Int).toNat - [sampleTask].length)
        samplePartial :=
  ⟨(c1_amended [sampleTask] 2 samplePartial).2.2.2.2.1 (by decide),
   (c1_amended [sampleTask] 2 samplePartial).2.2.2.2.2.2 (by decide)⟩

/-- Claim C2 (counterexample): updating position 0 with a record that
supplies createdAt = 123 does modify the stored createdAt, although the
original task was created at 1000. -/
theorem c2_counterexample :
    (updateTask [sampleTask] 0 samplePartial).tasks =
      TasksAfterUpdate.intact [⟨"PROJ-1", "first", [], 123, "dev", "dev"⟩] ∧
    sampleTask.createdAt ≠ 123 := by
  decide

/-- Claim C2 (amended): at a valid position the update replaces the task
by the field-wise spread of the old task with the supplied record — every
supplied field overwrites, createdAt included when supplied; every
unsupplied field and every other task is unchanged. -/
theorem c2_amended (tasks : List Task) (i : Nat) (u : PartialTask) (h : i < tasks.length) :
    (updateTask tasks (i : Int) u).tasks =
      TasksAfterUpdate.intact (tasks.set i (spreadTask tasks[i] u)) ∧
    (spreadTask tasks[i] u).jiraId = u.jiraId.getD tasks[i].jiraId ∧
    (spreadTask tasks[i] u).notes = u.notes.getD tasks[i].notes ∧
    (spreadTask tasks[i] u).modifiedFiles = u.modifiedFiles.getD tasks[i].modifiedFiles ∧
    (spreadTask tasks[i] u).createdAt = u.createdAt.getD tasks[i].createdAt ∧
    (spreadTask tasks[i] u).status = u.status.getD tasks[i].status ∧
    (spreadTask tasks[i] u).environment = u.environment.getD tasks[i].environment ∧
    (∀ j : Nat, j ≠ i → (tasks.set i (spreadTask tasks[i] u))[j]? = tasks[j]?) := by
  have h1 : (i : Int).toNat = i := by omega
  refine ⟨?_, rfl, rfl, rfl, rfl, rfl, rfl, ?_⟩
  · unfold updateTask
    rw [if_neg (by omega)]
    simp only [h1]
    rw [dif_pos h]
  · intro j hj
    exact List.getElem?_set_ne (by omega)

/-- Claim C2 (amended, witness): the amended claim instantiated on a
one-element list at position 0 with a createdAt-only update. -/
theorem c2_amended_witness :
    (updateTask [sampleTask] ((0 : Nat) : Int) samplePartial).tasks =
      TasksAfterUpdate.intact ([sampleTask].set 0 (spreadTask ([sampleTask])[0] samplePartial)) ∧
    ([sampleTask].set 0 (spreadTask ([sampleTask])[0] samplePartial))[1]? = ([sampleTask])[1]? :=
  ⟨(c2_amended [sampleTask] 0 samplePartial (by decide)).1,
   (c2_amended [sampleTask] 0 samplePartial (by decide)).2.2.2.2.2.2.2 1 (by decide)⟩

/-- Claim C10: on a non-empty task list, a delete at position -1 removes
the last task (splice counts a negative start from the end), persists the
shortened sequence and reports success. -/
theorem c10_delete_last (tasks : List Task) (h : tasks ≠ []) :
    (deleteTask tasks (-1)).tasks = tasks.dropLast ∧
    (deleteTask tasks (-1)).persisted = some tasks.dropLast ∧
    (deleteTask tasks (-1)).outcome = TaskOpOutcome.success deleteMsg := by
  have hlen : 1 ≤ tasks.length := by
    cases tasks with
    | nil => exact absurd rfl h
    | cons a l => simp
  have hs : spliceStart tasks.length (-1) = tasks.length - 1 := by
    unfold spliceStart
    rw [if_pos (by omega)]
    omega
  have hmain : (deleteTask tasks (-1)).tasks = tasks.dropLast := by
    have h2 : tasks.length - 1 + 1 = tasks.length := by omega
    simp only [deleteTask, hs]
    rw [h2, List.drop_length, List.append_nil, List.dropLast_eq_take]
  refine ⟨hmain, ?_, rfl⟩
  have hp : (deleteTask tasks (-1)).persisted = some (deleteTask tasks (-1)).tasks := rfl
  rw [hp, hmain]

/-- Claim C10 (witness): deleting at -1 from a one-element list. -/
theorem c10_delete_last_witness :
    (deleteTask [sampleTask] (-1)).tasks = [sampleTask].dropLast ∧
    (deleteTask [sampleTask] (-1)).persisted = some [sampleTask].dropLast ∧
    (deleteTask [sampleTask] (-1)).outcome = TaskOpOutcome.success deleteMsg :=
  c10_delete_last [sampleTask] (by decide)

/-- Claim C3 (counterexample): starting from the default settings record,
the settings update with only pomodoro.workDuration = 50 sets workDuration
to 50 but discards shortBreakDuration — it becomes absent instead of
retaining its prior value (some 5). -/
theorem c3_counterexample :
    (saveSettings (loadSettings []) none [] pomOnly 0).settings.pomodoro.workDuration =
      some 50 ∧
    (loadSettings []).pomodoro.shortBreakDuration = some 5 ∧
    (saveSettings (loadSettings []) none [] pomOnly 0).settings.pomodoro.shortBreakDuration ≠
      (loadSettings []).pomodoro.shortBreakDuration := by
  decide

/-- Claim C3 (amended): the top-level merge is shallow.  Updating with
only pomodoro.workDuration = 50 wholesale-replaces the pomodoro sub-record
— workDuration becomes 50 while shortBreakDuration, longBreakDuration and
longBreakInterval become absent — and every other top-level settings field
retains its prior value. -/
theorem c3_amended (cur : SettingsObj) (timer : Option Nat) (cfg : HostConfig) (now : Nat) :
    (saveSettings cur timer cfg pomOnly now).settings.pomodoro =
      PomodoroObj.mk (some 50) none none none ∧
    (saveSettings cur timer cfg pomOnly now).settings.taskStatuses = cur.taskStatuses ∧
    (saveSettings cur timer cfg pomOnly now).settings.environments = cur.environments ∧
    (saveSettings cur timer cfg pomOnly now).settings.focusMode = cur.focusMode ∧
    (saveSettings cur timer cfg pomOnly now).settings.notifications = cur.notifications := by
  unfold saveSettings
  split <;> exact ⟨rfl, rfl, rfl, rfl, rfl⟩

/-- Claim C7: toggling focus mode is its own inverse from every state, and
from the default disabled state two toggles emit two focusModeChanged
events with payloads true then false and end disabled again. -/
theorem c7_toggle (s : SettingsObj) :
    (∀ b : Bool, (toggleFocusMode s (toggleFocusMode s b).isFocusMode).isFocusMode = b) ∧
    (toggleFocusMode s false).event = true ∧
    (toggleFocusMode s false).isFocusMode = true ∧
    (toggleFocusMode s (toggleFocusMode s false).isFocusMode).event = false ∧
    (toggleFocusMode s (toggleFocusMode s false).isFocusMode).isFocusMode = false := by
  refine ⟨?_, rfl, rfl, rfl, rfl⟩
  intro b
  cases b <;> rfl

/-- Claim C8: when the partial settings carry a pomodoro sub-record and a
pomodoro interval is live, the timer is restarted from now with the new
work duration (the previous end time is discarded); when no interval is
live, none is started. -/
theorem c8_pomodoro_restart (settings : SettingsObj) (timer : Option Nat) (cfg : HostConfig)
    (p : PartialSettings) (now : Nat) (po : PomodoroObj) (wd e : Nat) :
    (timer = some e → p.pomodoro = some po → po.workDuration = some wd →
      (saveSettings settings timer cfg p now).timer = some (now + wd * 60 * 1000)) ∧
    (timer = none → (saveSettings settings timer cfg p now).timer = none) := by
  constructor
  · intro ht hp hw
    simp [saveSettings, mergeSettings, startPomodoro, hp, ht, hw]
  · intro ht
    simp [saveSettings, ht]

/-- Claim C8 (witness): both branches at concrete states — a live timer
ending at 99 is replaced by an end time computed afresh from now = 7 with
the new duration 50, and with no live timer none is started. -/
theorem c8_pomodoro_restart_witness :
    (saveSettings (loadSettings []) (some 99) [] pomOnly 7).timer =
      some (7 + 50 * 60 * 1000) ∧
    (saveSettings (loadSettings []) none [] pomOnly 7).timer = none :=
  ⟨(c8_pomodoro_restart (loadSettings []) (some 99) [] pomOnly 7
      (PomodoroObj.mk (some 50) none none none) 50 99).1 rfl rfl rfl,
   (c8_pomodoro_restart (loadSettings []) none [] pomOnly 7
      (PomodoroObj.mk (some 50) none none none) 50 99).2 rfl⟩

/-- Updating a key leaves the lookup of every other key unchanged. -/
theorem lookupCfg_cfgUpdate_ne (cfg : HostConfig) (key k : String) (v : CfgVal)
    (h : k ≠ key) : lookupCfg (cfgUpdate cfg key v) k = lookupCfg cfg k := by
  induction cfg with
  | nil =>
    simp only [cfgUpdate, lookupCfg]
    rw [if_neg (fun hh => h hh.symm)]
  | cons head rest ih =>
    obtain ⟨k0, v0⟩ := head
    simp only [cfgUpdate]
    by_cases h0 : k0 = key
    · subst h0
      rw [if_pos rfl]
      simp only [lookupCfg]
      rw [if_neg (fun hh => h hh.symm), if_neg (fun hh => h hh.symm)]
    · rw [if_neg h0]
      simp only [lookupCfg]
      by_cases h1 : k0 = k
      · rw [if_pos h1, if_pos h1]
      · rw [if_neg h1, if_neg h1]
        exact ih

/-- The five configuration writes of a settings update never touch the
watchdog key, so the watchdog threshold is unchanged. -/
theorem thresholdOf_saveSettings (settings : SettingsObj) (timer : Option Nat)
    (cfg : HostConfig) (p : PartialSettings) (now : Nat) :
    inactivityThresholdOf (saveSettings settings timer cfg p now).cfg =
      inactivityThresholdOf cfg := by
  have hcfg : (saveSettings settings timer cfg p now).cfg =
      cfgUpdate (cfgUpdate (cfgUpdate (cfgUpdate (cfgUpdate cfg keyTaskStatuses
        (CfgVal.strs (mergeSettings settings p).taskStatuses)) keyEnvironments
        (CfgVal.strs (mergeSettings settings p).environments)) keyPomodoro
        (CfgVal.pom (mergeSettings settings p).pomodoro)) keyFocusMode
        (CfgVal.focus (mergeSettings settings p).focusMode)) keyNotifications
        (CfgVal.notif (mergeSettings settings p).notifications) := by
    unfold saveSettings
    split <;> rfl
  unfold inactivityThresholdOf getNumOr
  rw [hcfg, lookupCfg_cfgUpdate_ne _ _ _ _ (by decide),
    lookupCfg_cfgUpdate_ne _ _ _ _ (by decide), lookupCfg_cfgUpdate_ne _ _ _ _ (by decide),
    lookupCfg_cfgUpdate_ne _ _ _ _ (by decide), lookupCfg_cfgUpdate_ne _ _ _ _ (by decide)]

/-- Claim C9: the watchdog fires exactly when the elapsed minutes since
the last activity reach the threshold, whatever the in-memory settings
record holds (the enableInactivityAlerts flag is never consulted); its
threshold comes from the host configuration key alex.inactivityThreshold;
and a settings update, which writes only the five alex.* settings keys,
changes neither the threshold nor the firing behaviour. -/
theorem c9_watchdog :
    (∀ s1 s2 : SettingsObj, ∀ last cfg now,
      inactivityPoll s1 last cfg now = inactivityPoll s2 last cfg now) ∧
    (∀ (s : SettingsObj) (last : Nat) (cfg : HostConfig) (now : Nat),
      inactivityPoll s last cfg now = true ↔
        inactivityThresholdOf cfg ≤ (now - last) / (1000 * 60)) ∧
    (∀ (cfg : HostConfig) (n : Nat),
      lookupCfg cfg keyInactivityThreshold = some (CfgVal.num n) → n ≠ 0 →
        inactivityThresholdOf cfg = n) ∧
    (∀ settings timer cfg p now,
      inactivityThresholdOf (saveSettings settings timer cfg p now).cfg =
        inactivityThresholdOf cfg) ∧
    (∀ settings timer cfg p now (s : SettingsObj) (last now2 : Nat),
      inactivityPoll s last (saveSettings settings timer cfg p now).cfg now2 =
        inactivityPoll s last cfg now2) := by
  refine ⟨fun _ _ _ _ _ => rfl, ?_, ?_, thresholdOf_saveSettings, ?_⟩
  · intro s last cfg now
    simp [inactivityPoll]
  · intro cfg n hl hn
    unfold inactivityThresholdOf getNumOr
    rw [hl]
    simp [hn]
  · intro settings timer cfg p now s last now2
    unfold inactivityPoll
    rw [thresholdOf_saveSettings]

/-- Claim C9 (witness): the threshold-reading conjunct instantiated on a
configuration that stores 7 under alex.inactivityThreshold. -/
theorem c9_watchdog_witness :
    lookupCfg [(keyInactivityThreshold, CfgVal.num 7)] keyInactivityThreshold =
      some (CfgVal.num 7) ∧
    (7 : Nat) ≠ 0 ∧
    inactivityThresholdOf [(keyInactivityThreshold, CfgVal.num 7)] = 7 :=
  ⟨by decide, by decide,
   c9_watchdog.2.2.1 [(keyInactivityThreshold, CfgVal.num 7)] 7 (by decide) (by decide)⟩

/-- A fold of addTask calls appends the corresponding tasks in call
order. -/
theorem runAdds_eq (calls : List AddCall) :
    ∀ tasks, runAdds tasks calls = tasks ++ calls.map mkTask := by
  induction calls with
  | nil => intro tasks; simp [runAdds]
  | cons c cs ih =>
    intro tasks
    show runAdds (tasks ++ [mkTask c]) cs = _
    rw [ih]
    simp

/-- Claim C6: a sequence of addTask calls with non-decreasing wall-clock
times yields, via list(), exactly the created tasks in call order, with
createdAt equal to each call time, hence monotonically non-decreasing; and
every single call appends its task at the end, returns the created record,
persists the grown sequence and reports success (it never fails). -/
theorem c6_addTask_order (calls : List AddCall)
    (h : List.Chain' (· ≤ ·) (calls.map AddCall.time)) :
    runAdds [] calls = calls.map mkTask ∧
    (runAdds [] calls).map Task.createdAt = calls.map AddCall.time ∧
    List.Chain' (· ≤ ·) ((runAdds [] calls).map Task.createdAt) ∧
    (∀ tasks c, (addTask tasks c).tasks = tasks ++ [mkTask c] ∧
      (addTask tasks c).created = mkTask c ∧
      (addTask tasks c).persisted = some (tasks ++ [mkTask c]) ∧
      (addTask tasks c).message = "Task " ++ c.jiraId ++ " added successfully!") := by
  have he : runAdds [] calls = calls.map mkTask := by
    rw [runAdds_eq]
    simp
  have hm : (runAdds [] calls).map Task.createdAt = calls.map AddCall.time := by
    rw [he, List.map_map]
    rfl
  refine ⟨he, hm, ?_, fun tasks c => ⟨rfl, rfl, rfl, rfl⟩⟩
  rw [hm]
  exact h

/-- Claim C6 (witness): two concrete calls at times 1 and 2. -/
theorem c6_addTask_order_witness :
    runAdds [] sampleCalls = sampleCalls.map mkTask ∧
    List.Chain' (· ≤ ·) ((runAdds [] sampleCalls).map Task.createdAt) :=
  ⟨(c6_addTask_order sampleCalls (by simp [sampleCalls])).1,
   (c6_addTask_order sampleCalls (by simp [sampleCalls])).2.2.1⟩

/-- The trace of interval callbacks: instants before the end time emit
formatted countdown displays; the first instant at or past the end time
emits the single completing tick and clears the interval, after which
nothing more is emitted. -/
theorem runTicks_spec (endTime : Nat) (times : List Nat) :
    (runTicks endTime times).1 =
      (times.takeWhile (fun t => decide (t < endTime))).map (displayTick endTime) ++
        (if times.dropWhile (fun t => decide (t < endTime)) = [] then [] else [zeroTick]) ∧
    (runTicks endTime times).2 =
      (if times.dropWhile (fun t => decide (t < endTime)) = [] then some endTime
       else none) := by
  induction times with
  | nil => simp [runTicks]
  | cons now rest ih =>
    by_cases hlt : now < endTime
    · have h0 : ¬ endTime - now = 0 := by omega
      have hd : decide (now < endTime) = true := by simpa using hlt
      simp only [runTicks, pomodoroTick, if_neg h0, List.takeWhile_cons,
        List.dropWhile_cons, hd, if_true, List.map_cons, List.cons_append]
      exact ⟨by rw [ih.1]; rfl, by rw [ih.2]⟩
    · have h0 : endTime - now = 0 := by omega
      have hd : decide (now < endTime) = false := by simpa using hlt
      simp only [runTicks, pomodoroTick, if_pos h0, List.takeWhile_cons,
        List.dropWhile_cons, hd]
      simp [zeroTick]

/-- Claim C5 (counterexample): starting the work timer with the default
workDuration 25 at instant 0 sets the end time to 1500000; the tick at
instant 901000 (remaining 599000 ms, i.e. 9 minutes 59 seconds) displays
9:59, not the two-digit-minutes form 09:59 required by the mm:ss
format. -/
theorem c5_counterexample :
    (startPomodoro (loadSettings []) 0).1 = some 1500000 ∧
    (pomodoroTick 1500000 901000).2.display = formatTick 599000 ∧
    formatTick 599000 ≠ specMMSS 599000 := by
  decide

/-- Claim C5 (amended): starting with workDuration 25 first emits 25:00
and sets the end time 25 minutes ahead; every subsequent tick before the
end emits the remaining time as bare minutes, a colon and two-digit
seconds; the first tick at or past the end emits a single completion
notification together with a 00:00 display, the interval becomes idle and
no further ticks are emitted. -/
theorem c5_amended (s : SettingsObj) (now0 endTime : Nat) (times : List Nat)
    (hw : s.pomodoro.workDuration = some 25) :
    (startPomodoro s now0).2 = "25:00" ∧
    (startPomodoro s now0).1 = some (now0 + 25 * 60 * 1000) ∧
    (runTicks endTime times).1 =
      (times.takeWhile (fun t => decide (t < endTime))).map (displayTick endTime) ++
        (if times.dropWhile (fun t => decide (t < endTime)) = [] then [] else [zeroTick]) ∧
    (runTicks endTime times).2 =
      (if times.dropWhile (fun t => decide (t < endTime)) = [] then some endTime
       else none) ∧
    (runTicks endTime times).1.countP (fun o => o.notified) =
      (if times.dropWhile (fun t => decide (t < endTime)) = [] then 0 else 1) := by
  refine ⟨?_, ?_, (runTicks_spec endTime times).1, (runTicks_spec endTime times).2, ?_⟩
  · unfold startPomodoro
    rw [hw]
    rfl
  · unfold startPomodoro
    rw [hw]
    rfl
  · rw [(runTicks_spec endTime times).1, List.countP_append]
    have hz : ((times.takeWhile (fun t => decide (t < endTime))).map
        (displayTick endTime)).countP (fun o => o.notified) = 0 := by
      rw [List.countP_eq_zero]
      intro o ho
      rw [List.mem_map] at ho
      obtain ⟨t, _, rfl⟩ := ho
      simp [displayTick]
    rw [hz]
    split <;> rfl

/-- Claim C5 (amended, witness): a run against end time 1500000 with ticks
at 1000 and 1500000. -/
theorem c5_amended_witness :
    (startPomodoro (loadSettings []) 0).2 = "25:00" ∧
    (runTicks 1500000 [1000, 1500000]).1 =
      ([1000, 1500000].takeWhile (fun t => decide (t < 1500000))).map (displayTick 1500000) ++
        (if [1000, 1500000].dropWhile (fun t => decide (t < 1500000)) = [] then []
         else [zeroTick]) ∧
    (runTicks 1500000 [1000, 1500000]).1.countP (fun o => o.notified) =
      (if [1000, 1500000].dropWhile (fun t => decide (t < 1500000)) = [] then 0 else 1) :=
  ⟨(c5_amended (loadSettings []) 0 1500000 [1000, 1500000] (by decide)).1,
   (c5_amended (loadSettings []) 0 1500000 [1000, 1500000] (by decide)).2.2.1,
   (c5_amended (loadSettings []) 0 1500000 [1000, 1500000] (by decide)).2.2.2.2⟩

/-- Reading back a rendered decimal digit gives the digit. -/
theorem digitVal_digitChar : ∀ d : Nat, d < 10 → digitVal (digitChar d) = some d := by
  decide

theorem read2_pad (n : Nat) (h : n < 100) :
    read2 (digitChar (n / 10)) (digitChar (n % 10)) = some n := by
  unfold read2
  rw [digitVal_digitChar _ (by omega), digitVal_digitChar _ (by omega)]
  show some (10 * (n / 10) + n % 10) = some n
  congr 1
  omega

theorem read3_pad (n : Nat) (h : n < 1000) :
    read3 (digitChar (n / 100)) (digitChar (n / 10 % 10)) (digitChar (n % 10)) = some n := by
  unfold read3
  rw [digitVal_digitChar _ (by omega), digitVal_digitChar _ (by omega),
    digitVal_digitChar _ (by omega)]
  show some (100 * (n / 100) + 10 * (n / 10 % 10) + n % 10) = some n
  congr 1
  omega

theorem read4_pad (n : Nat) (h : n < 10000) :
    read4 (digitChar (n / 1000)) (digitChar (n / 100 % 10)) (digitChar (n / 10 % 10))
      (digitChar (n % 10)) = some n := by
  unfold read4
  rw [digitVal_digitChar _ (by omega), digitVal_digitChar _ (by omega),
    digitVal_digitChar _ (by omega), digitVal_digitChar _ (by omega)]
  show some (1000 * (n / 1000) + 100 * (n / 100 % 10) + 10 * (n / 10 % 10) + n % 10) = some n
  congr 1
  omega

theorem isLeap_iff (y : Nat) :
    isLeap y = true ↔ ((y % 4 = 0 ∧ ¬ y % 100 = 0) ∨ y % 400 = 0) := by
  unfold isLeap
  simp

/-- Crossing one year adds one to the leap count exactly for leap
years. -/
theorem leapStep (y : Nat) :
    leapCount (y + 1) = leapCount y + (if isLeap y then 1 else 0) := by
  by_cases h : isLeap y = true
  · rw [if_pos h]
    rw [isLeap_iff] at h
    unfold leapCount
    omega
  · rw [if_neg h]
    have h2 : ¬ ((y % 4 = 0 ∧ ¬ y % 100 = 0) ∨ y % 400 = 0) :=
      fun hh => h ((isLeap_iff y).mpr hh)
    unfold leapCount
    omega

/-- Closed form for the cumulative year lengths in terms of the leap
count. -/
theorem ydays_leapCount : ∀ (k y : Nat),
    leapCount y + ydaysFrom y k = 365 * k + leapCount (y + k) := by
  intro k
  induction k with
  | zero => intro y; simp [ydaysFrom]
  | succ k ih =>
    intro y
    simp only [ydaysFrom]
    have hs := leapStep y
    have hih := ih (y + 1)
    have hyk : y + 1 + k = y + (k + 1) := by omega
    rw [hyk] at hih
    unfold daysInYear
    by_cases h : isLeap y = true
    · rw [if_pos h]
      rw [if_pos h] at hs
      omega
    · rw [if_neg h]
      rw [if_neg h] at hs
      omega

theorem ydays_mono : ∀ (k j y : Nat), ydaysFrom y k ≤ ydaysFrom y (k + j) := by
  intro k
  induction k with
  | zero => intro j y; simp [ydaysFrom]
  | succ k ih =>
    intro j y
    have hr : k + 1 + j = (k + j) + 1 := by omega
    rw [hr]
    simp only [ydaysFrom]
    have := ih j (y + 1)
    omega

/-- The 8030 years from 1970 to 10000 hold 2932897 days. -/
theorem ydays8030 : ydaysFrom 1970 8030 = 2932897 := by
  have h := ydays_leapCount 8030 1970
  unfold leapCount at h
  omega

/-- Specification of the year-peeling loop: it lands within a valid day of
a year at or past the start year, and the peeled-off days recompose the
input. -/
theorem yearSplit_spec (n : Nat) : ∀ y,
    y ≤ (yearSplit y n).1 ∧
    ydaysFrom y ((yearSplit y n).1 - y) + (yearSplit y n).2 = n ∧
    (yearSplit y n).2 < daysInYear (yearSplit y n).1 := by
  induction n using Nat.strong_induction_on with
  | _ n ih =>
    intro y
    rw [yearSplit]
    split
    case isTrue h =>
      exact ⟨Nat.le_refl y, by simp [ydaysFrom], h⟩
    case isFalse h =>
      have h365 : 365 ≤ daysInYear y := by
        unfold daysInYear
        split <;> omega
      have hlt : n - daysInYear y < n := by omega
      obtain ⟨h1, h2, h3⟩ := ih (n - daysInYear y) hlt (y + 1)
      refine ⟨by omega, ?_, h3⟩
      have hk : (yearSplit (y + 1) (n - daysInYear y)).1 - y =
          ((yearSplit (y + 1) (n - daysInYear y)).1 - (y + 1)) + 1 := by omega
      rw [hk]
      simp only [ydaysFrom]
      omega

/-- A day number within the four-digit regime lands in a year at most
9999. -/
theorem yearSplit_year_le (day : Nat) (h : day ≤ 2932896) :
    (yearSplit 1970 day).1 ≤ 9999 := by
  by_contra hY
  obtain ⟨h1, h2, h3⟩ := yearSplit_spec day 1970
  have hk : (yearSplit 1970 day).1 - 1970 = 8030 + ((yearSplit 1970 day).1 - 10000) := by
    omega
  have hm := ydays_mono 8030 ((yearSplit 1970 day).1 - 10000) 1970
  rw [← hk, ydays8030] at hm
  omega

theorem monthLengths_sum_eq (y : Nat) : (monthLengths (isLeap y)).sum = daysInYear y := by
  unfold daysInYear
  cases h : isLeap y <;> decide

theorem monthLengths_getD_le (b : Bool) (i : Nat) : (monthLengths b).getD i 0 ≤ 31 := by
  by_cases h : i < 12
  · interval_cases i <;> cases b <;> decide
  · have hlen : (monthLengths b).length = 12 := by cases b <;> rfl
    rw [List.getD_eq_default _ _ (by omega)]
    decide

/-- Specification of the month-peeling loop on a day of year within the
total: it lands in a valid month, within that month's length, and the
peeled-off days recompose the input. -/
theorem monthSplit_spec : ∀ (ms : List Nat) (n : Nat), n < ms.sum →
    (monthSplit ms n).1 < ms.length ∧
    (ms.take (monthSplit ms n).1).sum + (monthSplit ms n).2 = n ∧
    (monthSplit ms n).2 < ms.getD (monthSplit ms n).1 0 := by
  intro ms
  induction ms with
  | nil =>
    intro n hn
    simp at hn
  | cons m rest ih =>
    intro n hn
    simp only [monthSplit]
    by_cases h : n < m
    · rw [if_pos h]
      exact ⟨by simp, by simp, by simpa using h⟩
    · rw [if_neg h]
      have hn2 : n - m < rest.sum := by
        simp only [List.sum_cons] at hn
        omega
      obtain ⟨h1, h2, h3⟩ := ih (n - m) hn2
      refine ⟨?_, ?_, ?_⟩
      · show (monthSplit rest (n - m)).1 + 1 < (m :: rest).length
        simp only [List.length_cons]
        omega
      · show ((m :: rest).take ((monthSplit rest (n - m)).1 + 1)).sum +
            (monthSplit rest (n - m)).2 = n
        rw [List.take_succ_cons]
        simp only [List.sum_cons]
        omega
      · show (monthSplit rest (n - m)).2 < (m :: rest).getD ((monthSplit rest (n - m)).1 + 1) 0
        simpa using h3

/-- Round trip of a single timestamp through its ISO rendering, for
timestamps within the four-digit-year regime. -/
theorem parse_toISO (t : Nat) (ht : t < year10000ms) :
    parseISO (toISOString t) = some t := by
  have hday : t / 86400000 ≤ 2932896 := by
    unfold year10000ms at ht
    omega
  obtain ⟨hy1, hy2, hy3⟩ := yearSplit_spec (t / 86400000) 1970
  have hY : (yearSplit 1970 (t / 86400000)).1 ≤ 9999 := yearSplit_year_le _ hday
  have hsum : (yearSplit 1970 (t / 86400000)).2 <
      (monthLengths (isLeap (yearSplit 1970 (t / 86400000)).1)).sum := by
    rw [monthLengths_sum_eq]
    exact hy3
  obtain ⟨hm1, hm2, hm3⟩ := monthSplit_spec _ _ hsum
  have hm3b := lt_of_lt_of_le hm3 (monthLengths_getD_le _ _)
  have hlen : (monthLengths (isLeap (yearSplit 1970 (t / 86400000)).1)).length = 12 := by
    cases (isLeap (yearSplit 1970 (t / 86400000)).1) <;> rfl
  rw [hlen] at hm1
  show parseISOChars (toISOChars t) = some t
  unfold toISOChars
  simp only [pad4Chars, pad2Chars, pad3Chars, List.cons_append, List.nil_append,
    List.append_assoc, List.singleton_append]
  simp only [parseISOChars]
  rw [read4_pad _ (by omega), read2_pad _ (by omega), read2_pad _ (by omega),
    read2_pad _ (by omega), read2_pad _ (by omega), read2_pad _ (by omega),
    read3_pad _ (by omega)]
  refine congrArg some ?_
  unfold dayFromCivil daysBeforeMonth
  simp only [Nat.add_sub_cancel]
  omega

/-- Claim C4: serializing a task sequence (each createdAt rendered by
toISOString on its way into the durable store) and reloading it (reviving
each createdAt with new Date) reproduces every task exactly — identical
id, notes, modifiedFiles, status, environment, and a createdAt equal to
the original at millisecond precision — for createdAt stamps within the
four-digit-year regime of toISOString. -/
theorem c4_roundtrip (tasks : List Task)
    (h : ∀ t ∈ tasks, t.createdAt < year10000ms) :
    tasks.map (fun t => reviveTask (serializeTask t)) = tasks.map some := by
  apply List.map_congr_left
  intro t ht
  unfold reviveTask serializeTask
  rw [parse_toISO t.createdAt (h t ht)]
  rfl

/-- Claim C4 (witness): the round trip on a concrete one-task list. -/
theorem c4_roundtrip_witness :
    (∀ t ∈ [sampleTask], t.createdAt < year10000ms) ∧
    [sampleTask].map (fun t => reviveTask (serializeTask t)) = [sampleTask].map some :=
  ⟨by decide, c4_roundtrip [sampleTask] (by decide)⟩

end Alex
